import Mathlib

/-!
Shallow embedding of `src/backend/server.js` from the
Online-Truck-Configurator repository, together with theorems checking the
natural-language specification against the code.

Conventions of the embedding:
* JavaScript numbers are modelled as `JsNum`: either a finite rational or
  one of the non-finite values `nan`, `inf`, `ninf`.  `toNumber` embeds the
  source's `toNumber` helper (`Number.isFinite(n) ? n : 0`).
* Timestamps (`Date.now()` values) are rationals measured in milliseconds,
  exactly as in the source.
* Mutable module-level state (rate window, token cache, item cache) is made
  explicit: each function takes the state and the current time and returns
  the updated state.
* Fallible operations return `Except`/`Option`; the upstream network is an
  oracle passed in as a function argument.
-/

/-- The codomain of JavaScript's `Number(...)` coercion: a finite rational
or one of the non-finite IEEE values. -/
inductive JsNum where
  | fin (q : ℚ)
  | nan
  | inf
  | ninf
deriving DecidableEq, Repr

/-- Embeds `toNumber` (server.js lines 199-202): `Number.isFinite(n) ? n : 0`. -/
def toNumber : JsNum → ℚ
  | .fin q => q
  | _ => 0

/-- Embeds `roundUpNice` (server.js lines 205-216): tiered ceiling rounding.
The step selection mirrors the source's if/else-if chain. -/
def roundUpNice (n : JsNum) : ℚ :=
  let x := toNumber n
  if x ≤ 0 then 0
  else
    let step : ℚ :=
      if 10 ≤ x ∧ x < 100 then 5
      else if 100 ≤ x ∧ x ≤ 500 then 20
      else if 500 < x ∧ x ≤ 1000 then 50
      else if 1000 < x then 100
      else 1
    ⌈x / step⌉ * step

/-- The step the source selects for a given (already coerced) value; extracted
so that theorems can talk about "the tier step of `x`". -/
def stepOf (x : ℚ) : ℚ :=
  if 10 ≤ x ∧ x < 100 then 5
  else if 100 ≤ x ∧ x ≤ 500 then 20
  else if 500 < x ∧ x ≤ 1000 then 50
  else if 1000 < x then 100
  else 1

/-- Modelled from the spec's words (for comparison with the code): the tier
table as the claim states it — step 1 on `[0,10)`, 5 on `[10,100)`, 20 on
`[100,500]`, 50 on `(500,1000]`, 100 above 1000. -/
def claimStep (x : ℚ) : ℚ :=
  if 0 ≤ x ∧ x < 10 then 1
  else if 10 ≤ x ∧ x < 100 then 5
  else if 100 ≤ x ∧ x ≤ 500 then 20
  else if 500 < x ∧ x ≤ 1000 then 50
  else 100

theorem roundUpNice_eq_step (x : ℚ) (hx : 0 < x) :
    roundUpNice (.fin x) = ⌈x / stepOf x⌉ * stepOf x := by
  simp only [roundUpNice, stepOf, toNumber]
  rw [if_neg (by linarith)]

theorem stepOf_eq_claimStep (x : ℚ) (hx : 0 < x) : stepOf x = claimStep x := by
  unfold stepOf claimStep
  by_cases h1 : 10 ≤ x ∧ x < 100
  · rw [if_pos h1, if_neg (by push_neg; intro _; linarith [h1.1]), if_pos h1]
  · by_cases h2 : 100 ≤ x ∧ x ≤ 500
    · rw [if_neg h1, if_pos h2, if_neg (by push_neg; intro _; linarith [h2.1]),
        if_neg h1, if_pos h2]
    · by_cases h3 : 500 < x ∧ x ≤ 1000
      · rw [if_neg h1, if_neg h2, if_pos h3,
          if_neg (by push_neg; intro _; linarith [h3.1]), if_neg h1, if_neg h2, if_pos h3]
      · by_cases h4 : 1000 < x
        · rw [if_neg h1, if_neg h2, if_neg h3, if_pos h4,
            if_neg (by push_neg; intro _; linarith), if_neg h1, if_neg h2, if_neg h3]
        · have hx10 : x < 10 := by
            by_contra hge
            push_neg at hge
            rcases lt_or_le x 100 with h | h
            · exact h1 ⟨hge, h⟩
            · rcases le_or_lt x 500 with h' | h'
              · exact h2 ⟨h, h'⟩
              · rcases le_or_lt x 1000 with h'' | h''
                · exact h3 ⟨h', h''⟩
                · exact h4 h''
          rw [if_neg h1, if_neg h2, if_neg h3, if_neg h4, if_pos ⟨le_of_lt hx, hx10⟩]

theorem stepOf_pos (x : ℚ) : 0 < stepOf x := by
  unfold stepOf
  split <;> norm_num
  split <;> norm_num
  split <;> norm_num
  split <;> norm_num

/-- C1: for every input `x` to the rounding operation, `x ≤ 0` gives 0, and a
positive `x` gives `ceil(x / step) * step` with the step tiers exactly as the
claim lists them — including the boundary values 10 ↦ 5, 100 ↦ 20, 500 ↦ 20,
1000 ↦ 50. -/
theorem C1_roundUpNice_tiers (x : ℚ) :
    roundUpNice (.fin x)
      = (if x ≤ 0 then 0 else ⌈x / claimStep x⌉ * claimStep x) ∧
    claimStep 10 = 5 ∧ claimStep 100 = 20 ∧ claimStep 500 = 20 ∧
    claimStep 1000 = 50 ∧ claimStep 1001 = 100 ∧ stepOf 10 = 5 ∧
    stepOf 100 = 20 ∧ stepOf 500 = 20 ∧ stepOf 1000 = 50 := by
  refine ⟨?_, by norm_num [claimStep], by norm_num [claimStep], by norm_num [claimStep],
    by norm_num [claimStep], by norm_num [claimStep], by norm_num [stepOf],
    by norm_num [stepOf], by norm_num [stepOf], by norm_num [stepOf]⟩
  by_cases hx : x ≤ 0
  · simp [roundUpNice, toNumber, hx]
  · push_neg at hx
    rw [if_neg (not_le.mpr hx), roundUpNice_eq_step x hx, stepOf_eq_claimStep x hx]

/-- C5: for positive `rawTotal`, the rounded value dominates it and lies within
one step of it, and rounding is idempotent when the rounded value stays in the
same tier as the raw value. -/
theorem C5_roundUpNice_bounds (x : ℚ) (hx : 0 < x) :
    x ≤ roundUpNice (.fin x) ∧
    roundUpNice (.fin x) - stepOf x < x ∧
    (stepOf (roundUpNice (.fin x)) = stepOf x →
      roundUpNice (.fin (roundUpNice (.fin x))) = roundUpNice (.fin x)) := by
  have hs : 0 < stepOf x := stepOf_pos x
  have hr : roundUpNice (.fin x) = ⌈x / stepOf x⌉ * stepOf x := roundUpNice_eq_step x hx
  have hle : x ≤ roundUpNice (.fin x) := by
    rw [hr]
    have h1 : x / stepOf x ≤ (⌈x / stepOf x⌉ : ℚ) := Int.le_ceil _
    calc x = x / stepOf x * stepOf x := by field_simp
    _ ≤ (⌈x / stepOf x⌉ : ℚ) * stepOf x := by
        exact mul_le_mul_of_nonneg_right h1 (le_of_lt hs)
  refine ⟨hle, ?_, ?_⟩
  · rw [hr]
    have h2 : (⌈x / stepOf x⌉ : ℚ) < x / stepOf x + 1 := Int.ceil_lt_add_one _
    have h3 : (⌈x / stepOf x⌉ : ℚ) * stepOf x < (x / stepOf x + 1) * stepOf x :=
      mul_lt_mul_of_pos_right h2 hs
    have h4 : (x / stepOf x + 1) * stepOf x = x + stepOf x := by field_simp
    linarith
  · intro hsame
    have hrpos : 0 < roundUpNice (.fin x) := lt_of_lt_of_le hx hle
    rw [roundUpNice_eq_step _ hrpos, hsame, hr]
    have hne : stepOf x ≠ 0 := ne_of_gt hs
    rw [mul_div_cancel_right₀ _ hne, Int.ceil_intCast]

/-- Witness for C5 at the spec's own worked example `rawTotal = 25`. -/
theorem C5_roundUpNice_bounds_witness :
    0 < (25 : ℚ) ∧
    ((25 : ℚ) ≤ roundUpNice (.fin 25) ∧
     roundUpNice (.fin 25) - stepOf 25 < 25 ∧
     (stepOf (roundUpNice (.fin 25)) = stepOf 25 →
       roundUpNice (.fin (roundUpNice (.fin 25))) = roundUpNice (.fin 25))) :=
  ⟨by norm_num, C5_roundUpNice_bounds 25 (by norm_num)⟩

/-- Model of JavaScript's `toLowerCase()` restricted to ASCII, which is all the
source's comparison against the literal `"item group"` depends on. -/
def jsLower (s : String) : String := ⟨s.data.map Char.toLower⟩

/-- The `{id, name}` object nested inside a group component (`g.item`). -/
structure ItemRef where
  id : Option Int
  name : Option String
deriving DecidableEq, Repr

/-- One element of `itemJson.groupItems`: `{ item: {id, name}, qty, price }`.
`item` is optional because the source reads it with `g?.item?...`. -/
structure GroupItem where
  item : Option ItemRef
  qty : JsNum
  price : JsNum
deriving DecidableEq, Repr

/-- The upstream item representation, with the fields the source reads.
`itemTypeName` is `itemJson?.itemType?.name` (`none` when the path is missing
or null); `groupItems` is `some` exactly when `Array.isArray(itemJson.groupItems)`. -/
structure ItemJson where
  id : Option Int
  itemNumber : Option String
  name : Option String
  description : Option String
  itemTypeName : Option String
  groupItems : Option (List GroupItem)
  price : JsNum
deriving DecidableEq, Repr

/-- A per-component pricing breakdown entry, as built in `calcItemRawTotal`. -/
structure Component where
  itemId : Option Int
  name : String
  qty : ℚ
  unitPrice : ℚ
  lineTotal : ℚ
deriving DecidableEq, Repr

/-- The `kind` tag: the code's string literals `"SRG"` and `"ITEM"`, which the
spec calls BUNDLE and SINGLE respectively. -/
inductive PKind where
  | SRG
  | ITEM
deriving DecidableEq, Repr

/-- The record returned by `calcItemRawTotal`. -/
structure PricingOut where
  rawTotal : ℚ
  components : List Component
  kind : PKind
deriving DecidableEq, Repr

/-- The body of the `groupItems.map(g => ...)` callback (server.js lines 223-233). -/
def mkComponent (g : GroupItem) : Component :=
  let qty := toNumber g.qty
  let unitPrice := toNumber g.price
  { itemId := (g.item.bind ItemRef.id)
    name := (g.item.bind ItemRef.name).getD ""
    qty := qty
    unitPrice := unitPrice
    lineTotal := qty * unitPrice }

/-- Embeds `calcItemRawTotal` (server.js lines 218-242); the source's local
`typeName` (`itemJson?.itemType?.name || ""`) is inlined as
`itemJson.itemTypeName.getD ""`. -/
def calcItemRawTotal (itemJson : ItemJson) : PricingOut :=
  match itemJson.groupItems with
  | some gs =>
    if jsLower (itemJson.itemTypeName.getD "") = "item group" then
      let components := gs.map mkComponent
      let rawTotal := components.foldl (fun sum c => sum + c.lineTotal) 0
      { rawTotal := rawTotal, components := components, kind := .SRG }
    else
      { rawTotal := toNumber itemJson.price, components := [], kind := .ITEM }
  | none => { rawTotal := toNumber itemJson.price, components := [], kind := .ITEM }

/-- Modelled from the amended claim's words (for comparison with the code):
when the type name is case-insensitively "item group" and a group-component
array is present — possibly empty — the result is a BUNDLE whose components
carry `lineTotal = qty × unitPrice` and whose `rawTotal` is the sum of the
line totals; otherwise a SINGLE with the item's own coerced price. -/
def claimPrice (itemJson : ItemJson) : PricingOut :=
  if jsLower (itemJson.itemTypeName.getD "") = "item group" ∧ itemJson.groupItems.isSome
  then
    let comps := (itemJson.groupItems.getD []).map (fun g =>
      { itemId := (g.item.bind ItemRef.id)
        name := (g.item.bind ItemRef.name).getD ""
        qty := toNumber g.qty
        unitPrice := toNumber g.price
        lineTotal := toNumber g.qty * toNumber g.price })
    { rawTotal := (comps.map Component.lineTotal).sum, components := comps, kind := .SRG }
  else
    { rawTotal := toNumber itemJson.price, components := [], kind := .ITEM }

theorem foldl_add_lineTotal (l : List Component) (a : ℚ) :
    l.foldl (fun sum c => sum + c.lineTotal) a = a + (l.map Component.lineTotal).sum := by
  induction l generalizing a with
  | nil => simp
  | cons c t ih => simp [List.foldl_cons, ih]; ring

/-- An item of type "Item Group" whose `groupItems` array is empty but whose
own price field is 7: the claim predicts a SINGLE result priced at 7, the
code takes the bundle branch. -/
def exEmptyGroup : ItemJson :=
  { id := some 1, itemNumber := some "TG-1", name := some "Empty group"
    description := none, itemTypeName := some "Item Group"
    groupItems := some [], price := .fin 7 }

/-- C2 counterexample: on an "item group" item with an EMPTY `groupItems`
array, the code returns kind BUNDLE (`SRG`) with `rawTotal = 0`, not the
SINGLE result with `rawTotal = price = 7` that the claim requires for an
empty component sequence. -/
theorem C2_counterexample_empty_group :
    exEmptyGroup.groupItems = some [] ∧
    toNumber exEmptyGroup.price = 7 ∧
    (calcItemRawTotal exEmptyGroup).kind = PKind.SRG ∧
    (calcItemRawTotal exEmptyGroup).rawTotal = 0 ∧
    ¬((calcItemRawTotal exEmptyGroup).kind = PKind.ITEM ∧
      (calcItemRawTotal exEmptyGroup).rawTotal = toNumber exEmptyGroup.price) := by
  refine ⟨rfl, rfl, ?_, ?_, ?_⟩ <;> decide

theorem calc_eq_claimPrice (itemJson : ItemJson) :
    calcItemRawTotal itemJson = claimPrice itemJson := by
  unfold calcItemRawTotal claimPrice
  split
  · rename_i gs hgi
    rw [hgi]
    by_cases ht : jsLower (itemJson.itemTypeName.getD "") = "item group"
    · rw [if_pos ht, if_pos ⟨ht, rfl⟩]
      simp only [PricingOut.mk.injEq]
      refine ⟨?_, rfl, trivial⟩
      rw [foldl_add_lineTotal, zero_add]
      rfl
    · rw [if_neg ht, if_neg]
      simp [ht]
  · rename_i hgi
    rw [hgi]
    rw [if_neg]
    simp

theorem claimPrice_lineTotals (itemJson : ItemJson) :
    ∀ c ∈ (claimPrice itemJson).components, c.lineTotal = c.qty * c.unitPrice := by
  unfold claimPrice
  split
  · intro c hc
    simp only [List.mem_map] at hc
    obtain ⟨g, _, rfl⟩ := hc
    rfl
  · intro c hc
    simp at hc

theorem claimPrice_srg_sum (itemJson : ItemJson) :
    (claimPrice itemJson).kind = PKind.SRG →
      (claimPrice itemJson).rawTotal
        = ((claimPrice itemJson).components.map Component.lineTotal).sum := by
  unfold claimPrice
  split
  · intro _
    rfl
  · intro hk
    exact PKind.noConfusion hk

/-- C2 (amended): the pricing computation takes the bundle branch exactly when
the type name is case-insensitively "item group" and `groupItems` is an array
— possibly empty.  In that branch components keep their original order with
`lineTotal = qty × unitPrice` and `rawTotal` is the sum of the line totals;
in every other case the result is SINGLE with the item's own coerced price
and no components. -/
theorem C2_calcItemRawTotal_characterization (itemJson : ItemJson) :
    calcItemRawTotal itemJson = claimPrice itemJson ∧
    (∀ c ∈ (calcItemRawTotal itemJson).components, c.lineTotal = c.qty * c.unitPrice) ∧
    ((calcItemRawTotal itemJson).kind = PKind.SRG →
      (calcItemRawTotal itemJson).rawTotal
        = ((calcItemRawTotal itemJson).components.map Component.lineTotal).sum) := by
  refine ⟨calc_eq_claimPrice itemJson, ?_, ?_⟩ <;> rw [calc_eq_claimPrice itemJson]
  · exact claimPrice_lineTotals itemJson
  · exact claimPrice_srg_sum itemJson

/-- The spec's worked bundle example: components `[{qty:2, price:10},
{qty:1, price:5}]`. -/
def exBundle : ItemJson :=
  { id := some 2, itemNumber := some "TG-2", name := some "Bundle"
    description := some "bundle item", itemTypeName := some "Item Group"
    groupItems := some
      [ { item := some { id := some 10, name := some "A" }, qty := .fin 2, price := .fin 10 }
      , { item := some { id := some 11, name := some "B" }, qty := .fin 1, price := .fin 5 } ]
    price := .fin 0 }

/-- Witness for C2 at the spec's worked bundle example. -/
theorem C2_calcItemRawTotal_witness :
    calcItemRawTotal exBundle = claimPrice exBundle ∧
    (∀ c ∈ (calcItemRawTotal exBundle).components, c.lineTotal = c.qty * c.unitPrice) ∧
    ((calcItemRawTotal exBundle).kind = PKind.SRG →
      (calcItemRawTotal exBundle).rawTotal
        = ((calcItemRawTotal exBundle).components.map Component.lineTotal).sum) :=
  C2_calcItemRawTotal_characterization exBundle

/-- The rate-guard state: module-level `windowStartMs` and `windowCount`
(server.js lines 42-43).  The per-minute limit is a parameter
(`STRIVEN_MAX_CALLS_PER_MIN`). -/
structure RateWindow where
  windowStartMs : ℚ
  windowCount : ℕ
deriving DecidableEq, Repr

/-- Embeds `rateWindowResetIfNeeded` (server.js lines 45-51). -/
def rateWindowResetIfNeeded (now : ℚ) (w : RateWindow) : RateWindow :=
  if 60000 ≤ now - w.windowStartMs then ⟨now, 0⟩ else w

/-- Embeds `canSpendStrivenCall` (server.js lines 53-56); the reset it runs is
returned as the updated state. -/
def canSpendStrivenCall (now : ℚ) (limit : ℕ) (w : RateWindow) : Bool × RateWindow :=
  let w1 := rateWindowResetIfNeeded now w
  (decide (w1.windowCount < limit), w1)

/-- Embeds `spendStrivenCall` (server.js lines 58-61). -/
def spendStrivenCall (now : ℚ) (w : RateWindow) : RateWindow :=
  let w1 := rateWindowResetIfNeeded now w
  { w1 with windowCount := w1.windowCount + 1 }

/-- Embeds `getRetryAfterSeconds` (server.js lines 63-68):
`Math.max(1, Math.ceil(msLeft / 1000))` over the remaining window time. -/
def getRetryAfterSeconds (now : ℚ) (w : RateWindow) : ℤ × RateWindow :=
  let w1 := rateWindowResetIfNeeded now w
  let msLeft := max 0 (60000 - (now - w1.windowStartMs))
  (max 1 ⌈msLeft / 1000⌉, w1)

/-- The admission sequence `strivenFetch` performs (server.js lines 142-149):
`canSpendStrivenCall` followed, on success, by `spendStrivenCall`, both at the
same instant (the source's cooperative scheduling keeps them atomic). -/
def admission (now : ℚ) (limit : ℕ) (w : RateWindow) : Bool × RateWindow :=
  let checked := canSpendStrivenCall now limit w
  if checked.1 then (true, spendStrivenCall now checked.2) else (false, checked.2)

/-- States the guard can reach from process start (`windowCount = 0`) through
admissions and the resets run by the read-only helpers. -/
inductive RateReachable (limit : ℕ) : RateWindow → Prop where
  | init (t0 : ℚ) : RateReachable limit ⟨t0, 0⟩
  | call (now : ℚ) (w : RateWindow) :
      RateReachable limit w → RateReachable limit (admission now limit w).2
  | reset (now : ℚ) (w : RateWindow) :
      RateReachable limit w → RateReachable limit (rateWindowResetIfNeeded now w)

theorem resetIfNeeded_count_le (now : ℚ) (w : RateWindow) (limit : ℕ)
    (h : w.windowCount ≤ limit) :
    (rateWindowResetIfNeeded now w).windowCount ≤ limit := by
  unfold rateWindowResetIfNeeded
  split
  · exact Nat.zero_le _
  · exact h

theorem admission_count_le (now : ℚ) (limit : ℕ) (w : RateWindow)
    (h : w.windowCount ≤ limit) :
    ((admission now limit w).2).windowCount ≤ limit := by
  unfold admission canSpendStrivenCall spendStrivenCall
  simp only []
  split
  · rename_i hok
    simp only [decide_eq_true_eq] at hok
    have : rateWindowResetIfNeeded now (rateWindowResetIfNeeded now w)
        = rateWindowResetIfNeeded now w := by
      unfold rateWindowResetIfNeeded
      split
      · rename_i h1
        rw [if_neg]
        simp
      · rfl
    simp only [this]
    exact Nat.succ_le_of_lt hok
  · exact resetIfNeeded_count_le now w limit h

theorem rateReachable_count_le (limit : ℕ) (w : RateWindow)
    (h : RateReachable limit w) : w.windowCount ≤ limit := by
  induction h with
  | init t0 => exact Nat.zero_le _
  | call now w _ ih => exact admission_count_le now limit w ih
  | reset now w _ ih => exact resetIfNeeded_count_le now w limit ih

/-- C4: in every reachable guard state `count ≤ limit`; inside an open window
a full counter is denied without any state change, a non-full counter is
admitted with the counter bumped by exactly 1, and once the window has
elapsed an admission resets the counter to 0 and then admits (leaving it
at 1) with the window restarted at `now`. -/
theorem C4_rateGuard (limit : ℕ) (w : RateWindow) (now : ℚ)
    (hlim : 0 < limit) (hreach : RateReachable limit w) :
    w.windowCount ≤ limit ∧
    (now - w.windowStartMs < 60000 → w.windowCount = limit →
      admission now limit w = (false, w)) ∧
    (now - w.windowStartMs < 60000 → w.windowCount < limit →
      admission now limit w = (true, ⟨w.windowStartMs, w.windowCount + 1⟩)) ∧
    (60000 ≤ now - w.windowStartMs →
      admission now limit w = (true, ⟨now, 1⟩)) := by
  refine ⟨rateReachable_count_le limit w hreach, ?_, ?_, ?_⟩
  · intro hwin hfull
    unfold admission canSpendStrivenCall rateWindowResetIfNeeded
    rw [if_neg (not_le.mpr hwin)]
    simp only [hfull, lt_self_iff_false, decide_False]
    rfl
  · intro hwin hlt
    unfold admission canSpendStrivenCall spendStrivenCall rateWindowResetIfNeeded
    rw [if_neg (not_le.mpr hwin)]
    simp only [hlt, decide_True, if_true]
    rw [if_neg (not_le.mpr hwin)]
  · intro hwin
    unfold admission canSpendStrivenCall spendStrivenCall rateWindowResetIfNeeded
    rw [if_pos hwin]
    simp only [hlim, decide_True, if_true]
    rw [if_neg (by norm_num)]

/-- Witness for C4 with limit 2 at the initial state and `now` inside the
window. -/
theorem C4_rateGuard_witness :
    (0 : ℕ) < 2 ∧ RateReachable 2 ⟨0, 0⟩ ∧
    ((RateWindow.mk 0 0).windowCount ≤ 2 ∧
     ((1000 : ℚ) - (RateWindow.mk 0 0).windowStartMs < 60000 →
       (RateWindow.mk 0 0).windowCount = 2 →
       admission 1000 2 ⟨0, 0⟩ = (false, ⟨0, 0⟩)) ∧
     ((1000 : ℚ) - (RateWindow.mk 0 0).windowStartMs < 60000 →
       (RateWindow.mk 0 0).windowCount < 2 →
       admission 1000 2 ⟨0, 0⟩ = (true, ⟨(RateWindow.mk 0 0).windowStartMs,
         (RateWindow.mk 0 0).windowCount + 1⟩)) ∧
     ((60000 : ℚ) ≤ 1000 - (RateWindow.mk 0 0).windowStartMs →
       admission 1000 2 ⟨0, 0⟩ = (true, ⟨1000, 1⟩))) :=
  ⟨by norm_num, RateReachable.init 0,
    C4_rateGuard 2 ⟨0, 0⟩ 1000 (by norm_num) (RateReachable.init 0)⟩

/-- The token cache: module-level `cachedToken` and `tokenExpiresAt`
(server.js lines 99-100). -/
structure TokenState where
  cachedToken : Option String
  tokenExpiresAt : ℚ
deriving DecidableEq, Repr

/-- JavaScript truthiness of a possibly-null string (`cachedToken &&`). -/
def jsTruthyStr : Option String → Bool
  | none => false
  | some s => decide (s ≠ "")

/-- The credential-exchange response: `{ access_token, expires_in }`.
`expiresIn` is `none` when the field is absent or `Number(...)` of it is not
a (finite) number. -/
structure TokenResponse where
  accessToken : String
  expiresIn : Option ℚ
deriving DecidableEq, Repr

/-- `(Number(json.expires_in) || 86400) * 1000` (server.js line 133): absent,
NaN and 0 all fall back to the 86 400-second default. -/
def expiresInMsOf (e : Option ℚ) : ℚ :=
  (match e with
   | some q => if q = 0 then 86400 else q
   | none => 86400) * 1000

/-- Embeds `getAccessToken` (server.js lines 106-137) with the exchange call
modelled as always succeeding with `resp`.  Result: the returned token, the
updated token state, and whether a network call was made. -/
def getAccessToken (now : ℚ) (st : TokenState) (resp : TokenResponse) :
    String × TokenState × Bool :=
  if jsTruthyStr st.cachedToken ∧ now < st.tokenExpiresAt then
    (st.cachedToken.getD "", st, false)
  else
    (resp.accessToken,
      ⟨some resp.accessToken, now + expiresInMsOf resp.expiresIn - 60000⟩, true)

/-- A cached token one that expires at t = 50 000 ms (a stored `expiresAt`
already has the 60 000 ms buffer subtracted). -/
def exTokenState : TokenState := ⟨some "tok", 50000⟩

/-- A concrete exchange response. -/
def exTokenResp : TokenResponse := ⟨"newtok", some 3600⟩

/-- C7 counterexample: at `now = 49 000` the code returns the cached token
without a network call, yet the claim's reuse condition
`now < expiresAt − 60 000` is false there — the code compares `now` against
the stored `expiresAt` directly (the buffer was already subtracted when the
value was stored), not against `expiresAt` minus the buffer a second time. -/
theorem C7_counterexample_buffer_twice :
    (getAccessToken 49000 exTokenState exTokenResp).2.2 = false ∧
    ¬(jsTruthyStr exTokenState.cachedToken = true ∧
      (49000 : ℚ) < exTokenState.tokenExpiresAt - 60000) := by
  constructor
  · rfl
  · intro h
    have : (49000 : ℚ) < -10000 := by
      have h2 := h.2
      norm_num [exTokenState] at h2
    linarith

/-- C7 (amended): the cached credential is returned without a network call iff
it exists (is truthy) and `now` is strictly before the stored `expiresAt` —
the 60 000 ms safety buffer enters once, at store time: a refresh stores
`expiresAt = now + lifetime − 60 000` with the lifetime defaulting to
86 400 000 ms when the response carries none, and returns the new
credential. -/
theorem C7_getAccessToken_characterization (now : ℚ) (st : TokenState)
    (resp : TokenResponse) :
    ((getAccessToken now st resp).2.2 = false ↔
      (jsTruthyStr st.cachedToken = true ∧ now < st.tokenExpiresAt)) ∧
    ((getAccessToken now st resp).2.2 = false →
      (getAccessToken now st resp).1 = st.cachedToken.getD "" ∧
      (getAccessToken now st resp).2.1 = st) ∧
    ((getAccessToken now st resp).2.2 = true →
      (getAccessToken now st resp).1 = resp.accessToken ∧
      (getAccessToken now st resp).2.1 =
        ⟨some resp.accessToken, now + expiresInMsOf resp.expiresIn - 60000⟩) ∧
    (resp.expiresIn = none → expiresInMsOf resp.expiresIn = 86400000) := by
  unfold getAccessToken
  by_cases h : jsTruthyStr st.cachedToken = true ∧ now < st.tokenExpiresAt
  · rw [if_pos h]
    refine ⟨by simp [h], fun _ => ⟨rfl, rfl⟩, by simp, ?_⟩
    intro he
    simp only [expiresInMsOf, he]
    norm_num
  · rw [if_neg (by exact fun hc => h ⟨hc.1, hc.2⟩)]
    refine ⟨by simp [h], by simp, fun _ => ⟨rfl, rfl⟩, ?_⟩
    intro he
    simp only [expiresInMsOf, he]
    norm_num

/-- Witness for C7 (amended) at a fresh state, where the exchange runs. -/
theorem C7_getAccessToken_witness :
    ((getAccessToken 0 ⟨none, 0⟩ exTokenResp).2.2 = false ↔
      (jsTruthyStr (none : Option String) = true ∧ (0 : ℚ) < 0)) ∧
    ((getAccessToken 0 ⟨none, 0⟩ exTokenResp).2.2 = false →
      (getAccessToken 0 ⟨none, 0⟩ exTokenResp).1 = (none : Option String).getD "" ∧
      (getAccessToken 0 ⟨none, 0⟩ exTokenResp).2.1 = ⟨none, 0⟩) ∧
    ((getAccessToken 0 ⟨none, 0⟩ exTokenResp).2.2 = true →
      (getAccessToken 0 ⟨none, 0⟩ exTokenResp).1 = exTokenResp.accessToken ∧
      (getAccessToken 0 ⟨none, 0⟩ exTokenResp).2.1 =
        ⟨some exTokenResp.accessToken, 0 + expiresInMsOf exTokenResp.expiresIn - 60000⟩) ∧
    (exTokenResp.expiresIn = none → expiresInMsOf exTokenResp.expiresIn = 86400000) := by
  have h := C7_getAccessToken_characterization 0 ⟨none, 0⟩ exTokenResp
  exact h

/-- A JSON value as stored in the item cache (`res.json()` can be any JSON
value, including falsy ones). -/
inductive JsVal where
  | jnull
  | jbool (b : Bool)
  | jnum (n : JsNum)
  | jstr (s : String)
  | jitem (it : ItemJson)
deriving DecidableEq, Repr

/-- JavaScript truthiness of a `JsVal` (used by `if (cached) return cached`). -/
def jsTruthy : JsVal → Bool
  | .jnull => false
  | .jbool b => b
  | .jnum (.fin q) => decide (q ≠ 0)
  | .jnum .nan => false
  | .jnum .inf => true
  | .jnum .ninf => true
  | .jstr s => decide (s ≠ "")
  | .jitem _ => true

/-- An identifier as passed to `fetchItemByIdCached`: a string (route params,
mapped ids) or a number (`Number(line.id)`). -/
inductive Ident where
  | str (s : String)
  | num (n : Int)
deriving DecidableEq, Repr

/-- JavaScript's `String(id)` on the identifiers that occur. -/
def identKey : Ident → String
  | .str s => s
  | .num n => toString n

/-- One cache entry: `{ ts, value }` (server.js line 41). -/
structure CacheEntry where
  ts : ℚ
  value : JsVal
deriving DecidableEq, Repr

/-- The in-memory `Map` keyed by the string form of the id. -/
abbrev CacheMap := List (String × CacheEntry)

def cacheFind : CacheMap → String → Option CacheEntry
  | [], _ => none
  | (k, e) :: rest, key => if k = key then some e else cacheFind rest key

def cacheErase : CacheMap → String → CacheMap
  | [], _ => []
  | (k, e) :: rest, key =>
    if k = key then cacheErase rest key else (k, e) :: cacheErase rest key

def ITEM_CACHE_TTL_MS : ℚ := 10 * 60 * 1000

/-- Embeds `cacheGetItem` (server.js lines 176-185): returns the value when the
entry is fresh, deletes it and reports absent when it is older than the TTL. -/
def cacheGetItem (now : ℚ) (c : CacheMap) (id : Ident) : Option JsVal × CacheMap :=
  let key := identKey id
  match cacheFind c key with
  | none => (none, c)
  | some hit =>
    if ITEM_CACHE_TTL_MS < now - hit.ts then (none, cacheErase c key)
    else (some hit.value, c)

/-- Embeds `cacheSetItem` (server.js lines 187-189): overwrite under the string
key with a fresh timestamp. -/
def cacheSetItem (now : ℚ) (c : CacheMap) (id : Ident) (value : JsVal) : CacheMap :=
  (identKey id, ⟨now, value⟩) :: cacheErase c (identKey id)

/-- A thrown error: `status` and `retryAfter` are the fields the handlers read. -/
structure JsError where
  status : Option Int
  retryAfter : Option ℚ
  message : String
deriving DecidableEq, Repr

/-- What the upstream item endpoint would answer if reached. -/
inductive UpstreamResult where
  | ok (v : JsVal)
  | httpErr (status : Int) (retryAfterHeader : Option ℚ) (msg : String)
deriving DecidableEq, Repr

/-- `Number(ra) || undefined` on the optional retry-after header (line 169). -/
def headerRetryAfter : Option ℚ → Option ℚ
  | none => none
  | some q => if q = 0 then none else some q

/-- The result of one `strivenFetch`: outcome, updated rate window, updated
token state, and whether the upstream item endpoint was actually reached. -/
structure StrivenOut where
  result : Except JsError JsVal
  window : RateWindow
  token : TokenState
  hitUpstream : Bool
deriving Repr

/-- Embeds `strivenFetch` (server.js lines 139-174): guard check, quota spend
(line 149), then token acquisition (line 151) and only then the authenticated
item call (modelled by the `upstream` oracle).  `tokenOk` is the token
endpoint's verdict on the exchange call; it matters only when `getAccessToken`
actually needs the network (cached token absent or expired, i.e. its network
flag is `true`).  A rejected exchange throws (server.js lines 124-127) with
the quota already spent, the token state unchanged, and the item endpoint
never reached. -/
def strivenFetch (now : ℚ) (limit : ℕ) (w : RateWindow) (tok : TokenState)
    (tokResp : TokenResponse) (tokenOk : Bool) (upstream : UpstreamResult) :
    StrivenOut :=
  if (canSpendStrivenCall now limit w).1 then
    if (getAccessToken now tok tokResp).2.2 = true ∧ tokenOk = false then
      ⟨.error ⟨none, none, "Token request failed"⟩,
        spendStrivenCall now (canSpendStrivenCall now limit w).2, tok, false⟩
    else
      match upstream with
      | .ok v =>
        ⟨.ok v, spendStrivenCall now (canSpendStrivenCall now limit w).2,
          (getAccessToken now tok tokResp).2.1, true⟩
      | .httpErr status ra msg =>
        ⟨.error ⟨some status, headerRetryAfter ra, msg⟩,
          spendStrivenCall now (canSpendStrivenCall now limit w).2,
          (getAccessToken now tok tokResp).2.1, true⟩
  else
    ⟨.error ⟨some 429,
      some ((getRetryAfterSeconds now (canSpendStrivenCall now limit w).2).1 : ℚ),
      "Rate limit guard: too many Striven calls this minute"⟩,
      (getRetryAfterSeconds now (canSpendStrivenCall now limit w).2).2, tok, false⟩

/-- The result of one `fetchItemByIdCached`: outcome, updated cache / window /
token, whether `strivenFetch` was entered, whether upstream was reached. -/
structure CachedFetchOut where
  result : Except JsError JsVal
  cache : CacheMap
  window : RateWindow
  token : TokenState
  calledStriven : Bool
  hitUpstream : Bool
deriving Repr

/-- Embeds `fetchItemByIdCached` (server.js lines 191-197): a truthy cache
value is returned as-is; otherwise the guarded fetch runs and a successful
response is stored. -/
def fetchItemByIdCached (now : ℚ) (limit : ℕ) (cache : CacheMap) (w : RateWindow)
    (tok : TokenState) (tokResp : TokenResponse) (tokenOk : Bool)
    (upstream : UpstreamResult) (id : Ident) : CachedFetchOut :=
  match (cacheGetItem now cache id).1 with
  | some v =>
    if jsTruthy v then ⟨.ok v, (cacheGetItem now cache id).2, w, tok, false, false⟩
    else
      match strivenFetch now limit w tok tokResp tokenOk upstream with
      | ⟨.ok item, w2, tok2, hit⟩ =>
        ⟨.ok item, cacheSetItem now (cacheGetItem now cache id).2 id item,
          w2, tok2, true, hit⟩
      | ⟨.error e, w2, tok2, hit⟩ =>
        ⟨.error e, (cacheGetItem now cache id).2, w2, tok2, true, hit⟩
  | none =>
    match strivenFetch now limit w tok tokResp tokenOk upstream with
    | ⟨.ok item, w2, tok2, hit⟩ =>
      ⟨.ok item, cacheSetItem now (cacheGetItem now cache id).2 id item,
        w2, tok2, true, hit⟩
    | ⟨.error e, w2, tok2, hit⟩ =>
      ⟨.error e, (cacheGetItem now cache id).2, w2, tok2, true, hit⟩

theorem cacheFind_erase (c : CacheMap) (key : String) :
    cacheFind (cacheErase c key) key = none := by
  induction c with
  | nil => rfl
  | cons p rest ih =>
    obtain ⟨k, e⟩ := p
    by_cases hk : k = key
    · simpa [cacheErase, hk] using ih
    · simp [cacheErase, cacheFind, hk, ih]

theorem cacheFind_set (now : ℚ) (c : CacheMap) (id : Ident) (v : JsVal) :
    cacheFind (cacheSetItem now c id v) (identKey id) = some ⟨now, v⟩ := by
  simp [cacheSetItem, cacheFind]

theorem reset_idem (now : ℚ) (w : RateWindow) :
    rateWindowResetIfNeeded now (rateWindowResetIfNeeded now w)
      = rateWindowResetIfNeeded now w := by
  unfold rateWindowResetIfNeeded
  split
  · rw [if_neg]
    simp
  · rfl

theorem strivenFetch_window_admitted (now : ℚ) (limit : ℕ) (w : RateWindow)
    (tok : TokenState) (tokResp : TokenResponse) (tokenOk : Bool)
    (upstream : UpstreamResult)
    (hok : (canSpendStrivenCall now limit w).1 = true) :
    (strivenFetch now limit w tok tokResp tokenOk upstream).window.windowCount
      = (rateWindowResetIfNeeded now w).windowCount + 1 := by
  unfold strivenFetch
  rw [if_pos hok]
  by_cases htok : (getAccessToken now tok tokResp).2.2 = true ∧ tokenOk = false
  · rw [if_pos htok]
    unfold spendStrivenCall canSpendStrivenCall
    simp [reset_idem]
  · rw [if_neg htok]
    cases upstream with
    | ok v =>
      unfold spendStrivenCall canSpendStrivenCall
      simp [reset_idem]
    | httpErr status ra msg =>
      unfold spendStrivenCall canSpendStrivenCall
      simp [reset_idem]

theorem strivenFetch_window_denied (now : ℚ) (limit : ℕ) (w : RateWindow)
    (tok : TokenState) (tokResp : TokenResponse) (tokenOk : Bool)
    (upstream : UpstreamResult)
    (hok : ¬ (canSpendStrivenCall now limit w).1 = true) :
    (strivenFetch now limit w tok tokResp tokenOk upstream).window
      = rateWindowResetIfNeeded now w := by
  unfold strivenFetch
  rw [if_neg hok]
  unfold getRetryAfterSeconds canSpendStrivenCall
  simp [reset_idem]

theorem strivenFetch_window_of_hit (now : ℚ) (limit : ℕ) (w : RateWindow)
    (tok : TokenState) (tokResp : TokenResponse) (tokenOk : Bool)
    (upstream : UpstreamResult)
    (h : (strivenFetch now limit w tok tokResp tokenOk upstream).hitUpstream
      = true) :
    (strivenFetch now limit w tok tokResp tokenOk upstream).window.windowCount
      = (rateWindowResetIfNeeded now w).windowCount + 1 := by
  by_cases hok : (canSpendStrivenCall now limit w).1 = true
  · exact strivenFetch_window_admitted now limit w tok tokResp tokenOk upstream hok
  · exfalso
    unfold strivenFetch at h
    rw [if_neg hok] at h
    exact Bool.noConfusion h

theorem fetchCached_result_cases (now : ℚ) (limit : ℕ) (cache : CacheMap)
    (w : RateWindow) (tok : TokenState) (tokResp : TokenResponse)
    (tokenOk : Bool) (upstream : UpstreamResult) (id : Ident) :
    (fetchItemByIdCached now limit cache w tok tokResp tokenOk upstream
      id).calledStriven = false ∧
    (fetchItemByIdCached now limit cache w tok tokResp tokenOk upstream
      id).window = w ∧
    (fetchItemByIdCached now limit cache w tok tokResp tokenOk upstream
      id).hitUpstream = false ∨
    (fetchItemByIdCached now limit cache w tok tokResp tokenOk upstream
      id).calledStriven = true ∧
    (fetchItemByIdCached now limit cache w tok tokResp tokenOk upstream
      id).window = (strivenFetch now limit w tok tokResp tokenOk upstream).window ∧
    (fetchItemByIdCached now limit cache w tok tokResp tokenOk upstream
      id).hitUpstream
      = (strivenFetch now limit w tok tokResp tokenOk upstream).hitUpstream := by
  unfold fetchItemByIdCached
  split
  · rename_i v hv
    split
    · exact Or.inl ⟨rfl, rfl, rfl⟩
    · right
      split
      · rename_i item w2 tok2 hit heq
        rw [heq]
        exact ⟨rfl, rfl, rfl⟩
      · rename_i e w2 tok2 hit heq
        rw [heq]
        exact ⟨rfl, rfl, rfl⟩
  · right
    split
    · rename_i item w2 tok2 hit heq
      rw [heq]
      exact ⟨rfl, rfl, rfl⟩
    · rename_i e w2 tok2 hit heq
      rw [heq]
      exact ⟨rfl, rfl, rfl⟩

/-- A cache holding a fresh, truthy item under key "5". -/
def exCacheHit : CacheMap := [("5", ⟨0, JsVal.jitem exBundle⟩)]

/-- C8 counterexample: with an empty cache and an expired (absent) cached
token, an admitted call whose token exchange is rejected consumes quota — the
window counter grows from 0 to 1 — while the upstream item endpoint is never
reached: the source spends quota at line 149 before `getAccessToken` (line
151), which throws at lines 124-127 on a rejected exchange. -/
theorem C8_counterexample_token_failure :
    (fetchItemByIdCached 0 90 [] ⟨0, 0⟩ ⟨none, 0⟩ exTokenResp false
      (.ok (.jitem exBundle)) (.num 5)).hitUpstream = false ∧
    (fetchItemByIdCached 0 90 [] ⟨0, 0⟩ ⟨none, 0⟩ exTokenResp false
      (.ok (.jitem exBundle)) (.num 5)).window.windowCount = 1 ∧
    (RateWindow.mk 0 0).windowCount = 0 := by
  have hcan : canSpendStrivenCall 0 90 ⟨0, 0⟩ = (true, ⟨0, 0⟩) := by
    unfold canSpendStrivenCall rateWindowResetIfNeeded
    norm_num
  have htok : (getAccessToken 0 ⟨none, 0⟩ exTokenResp).2.2 = true := by
    unfold getAccessToken
    rw [if_neg (fun hcon => Bool.noConfusion hcon.1)]
  have hspend : spendStrivenCall 0 (⟨0, 0⟩ : RateWindow) = ⟨0, 1⟩ := by
    unfold spendStrivenCall rateWindowResetIfNeeded
    norm_num
  have hsf : strivenFetch 0 90 ⟨0, 0⟩ ⟨none, 0⟩ exTokenResp false
      (.ok (.jitem exBundle))
      = ⟨.error ⟨none, none, "Token request failed"⟩, ⟨0, 1⟩, ⟨none, 0⟩, false⟩ := by
    simp [strivenFetch, hcan, htok, hspend]
  have hget : cacheGetItem 0 ([] : CacheMap) (.num 5) = (none, []) := rfl
  have hmain : fetchItemByIdCached 0 90 [] ⟨0, 0⟩ ⟨none, 0⟩ exTokenResp false
      (.ok (.jitem exBundle)) (.num 5)
      = ⟨.error ⟨none, none, "Token request failed"⟩, [], ⟨0, 1⟩, ⟨none, 0⟩,
        true, false⟩ := by
    unfold fetchItemByIdCached
    simp only [hget, hsf]
  exact ⟨by rw [hmain], by rw [hmain], rfl⟩

/-- C8 (amended): quota is consumed exactly when the guard admits a
non-cache-served call, not only when the item endpoint is reached.  A cached
fetch served from a truthy cache value leaves the rate window untouched and
never enters `strivenFetch`; a fetch that never enters `strivenFetch` leaves
the window unchanged; reaching the item endpoint always consumes exactly one
unit of quota; and an admitted `strivenFetch` consumes exactly one unit even
when the token exchange fails before the item endpoint, while a denied one
only applies the window reset. -/
theorem C8_quota_on_admission (now : ℚ) (limit : ℕ) (cache : CacheMap)
    (w : RateWindow) (tok : TokenState) (tokResp : TokenResponse)
    (tokenOk : Bool) (upstream : UpstreamResult) (id : Ident) :
    (∀ v, (cacheGetItem now cache id).1 = some v → jsTruthy v = true →
      (fetchItemByIdCached now limit cache w tok tokResp tokenOk upstream
        id).window = w ∧
      (fetchItemByIdCached now limit cache w tok tokResp tokenOk upstream
        id).hitUpstream = false ∧
      (fetchItemByIdCached now limit cache w tok tokResp tokenOk upstream
        id).calledStriven = false) ∧
    ((fetchItemByIdCached now limit cache w tok tokResp tokenOk upstream
        id).calledStriven = false →
      (fetchItemByIdCached now limit cache w tok tokResp tokenOk upstream
        id).window = w) ∧
    ((fetchItemByIdCached now limit cache w tok tokResp tokenOk upstream
        id).hitUpstream = true →
      (fetchItemByIdCached now limit cache w tok tokResp tokenOk upstream
        id).window.windowCount = (rateWindowResetIfNeeded now w).windowCount + 1) ∧
    ((fetchItemByIdCached now limit cache w tok tokResp tokenOk upstream
        id).calledStriven = true →
      (canSpendStrivenCall now limit w).1 = true →
      (fetchItemByIdCached now limit cache w tok tokResp tokenOk upstream
        id).window.windowCount = (rateWindowResetIfNeeded now w).windowCount + 1) ∧
    ((fetchItemByIdCached now limit cache w tok tokResp tokenOk upstream
        id).calledStriven = true →
      ¬ (canSpendStrivenCall now limit w).1 = true →
      (fetchItemByIdCached now limit cache w tok tokResp tokenOk upstream
        id).window = rateWindowResetIfNeeded now w) := by
  refine ⟨?_, ?_, ?_, ?_, ?_⟩
  · intro v hv htr
    unfold fetchItemByIdCached
    simp [hv, htr]
  · intro hnc
    rcases fetchCached_result_cases now limit cache w tok tokResp tokenOk
      upstream id with ⟨_, h2, _⟩ | ⟨h1, _, _⟩
    · exact h2
    · exact Bool.noConfusion (h1.symm.trans hnc)
  · intro hhit
    rcases fetchCached_result_cases now limit cache w tok tokResp tokenOk
      upstream id with ⟨_, _, h3⟩ | ⟨_, h2, h3⟩
    · exact Bool.noConfusion (h3.symm.trans hhit)
    · rw [h2]
      exact strivenFetch_window_of_hit now limit w tok tokResp tokenOk upstream
        (h3.symm.trans hhit)
  · intro hc hok
    rcases fetchCached_result_cases now limit cache w tok tokResp tokenOk
      upstream id with ⟨h1, _, _⟩ | ⟨_, h2, _⟩
    · exact Bool.noConfusion (h1.symm.trans hc)
    · rw [h2]
      exact strivenFetch_window_admitted now limit w tok tokResp tokenOk
        upstream hok
  · intro hc hok
    rcases fetchCached_result_cases now limit cache w tok tokResp tokenOk
      upstream id with ⟨h1, _, _⟩ | ⟨_, h2, _⟩
    · exact Bool.noConfusion (h1.symm.trans hc)
    · rw [h2]
      exact strivenFetch_window_denied now limit w tok tokResp tokenOk
        upstream hok

/-- Witness for C8 (amended) at a concrete cache-hit state with a succeeding
token endpoint. -/
theorem C8_quota_on_admission_witness :
    (∀ v, (cacheGetItem 1000 exCacheHit (.num 5)).1 = some v → jsTruthy v = true →
      (fetchItemByIdCached 1000 90 exCacheHit ⟨0, 3⟩ ⟨none, 0⟩ exTokenResp true
        (.ok (.jitem exBundle)) (.num 5)).window = ⟨0, 3⟩ ∧
      (fetchItemByIdCached 1000 90 exCacheHit ⟨0, 3⟩ ⟨none, 0⟩ exTokenResp true
        (.ok (.jitem exBundle)) (.num 5)).hitUpstream = false ∧
      (fetchItemByIdCached 1000 90 exCacheHit ⟨0, 3⟩ ⟨none, 0⟩ exTokenResp true
        (.ok (.jitem exBundle)) (.num 5)).calledStriven = false) ∧
    ((fetchItemByIdCached 1000 90 exCacheHit ⟨0, 3⟩ ⟨none, 0⟩ exTokenResp true
        (.ok (.jitem exBundle)) (.num 5)).calledStriven = false →
      (fetchItemByIdCached 1000 90 exCacheHit ⟨0, 3⟩ ⟨none, 0⟩ exTokenResp true
        (.ok (.jitem exBundle)) (.num 5)).window = ⟨0, 3⟩) ∧
    ((fetchItemByIdCached 1000 90 exCacheHit ⟨0, 3⟩ ⟨none, 0⟩ exTokenResp true
        (.ok (.jitem exBundle)) (.num 5)).hitUpstream = true →
      (fetchItemByIdCached 1000 90 exCacheHit ⟨0, 3⟩ ⟨none, 0⟩ exTokenResp true
        (.ok (.jitem exBundle)) (.num 5)).window.windowCount
        = (rateWindowResetIfNeeded 1000 ⟨0, 3⟩).windowCount + 1) ∧
    ((fetchItemByIdCached 1000 90 exCacheHit ⟨0, 3⟩ ⟨none, 0⟩ exTokenResp true
        (.ok (.jitem exBundle)) (.num 5)).calledStriven = true →
      (canSpendStrivenCall 1000 90 ⟨0, 3⟩).1 = true →
      (fetchItemByIdCached 1000 90 exCacheHit ⟨0, 3⟩ ⟨none, 0⟩ exTokenResp true
        (.ok (.jitem exBundle)) (.num 5)).window.windowCount
        = (rateWindowResetIfNeeded 1000 ⟨0, 3⟩).windowCount + 1) ∧
    ((fetchItemByIdCached 1000 90 exCacheHit ⟨0, 3⟩ ⟨none, 0⟩ exTokenResp true
        (.ok (.jitem exBundle)) (.num 5)).calledStriven = true →
      ¬ (canSpendStrivenCall 1000 90 ⟨0, 3⟩).1 = true →
      (fetchItemByIdCached 1000 90 exCacheHit ⟨0, 3⟩ ⟨none, 0⟩ exTokenResp true
        (.ok (.jitem exBundle)) (.num 5)).window
        = rateWindowResetIfNeeded 1000 ⟨0, 3⟩) :=
  C8_quota_on_admission 1000 90 exCacheHit ⟨0, 3⟩ ⟨none, 0⟩ exTokenResp true
    (.ok (.jitem exBundle)) (.num 5)

/-- C10: a fresh cache entry holding a FALSY value is treated as a miss by the
cached fetch — `strivenFetch` still runs, and when the guard admits (token
exchange succeeding), upstream is reached and the quota counter is spent. -/
theorem C10_falsy_cache_value_is_miss (now : ℚ) (limit : ℕ) (cache : CacheMap)
    (w : RateWindow) (tok : TokenState) (tokResp : TokenResponse)
    (upstream : UpstreamResult) (id : Ident) (e : CacheEntry)
    (hfind : cacheFind cache (identKey id) = some e)
    (hfresh : now - e.ts ≤ ITEM_CACHE_TTL_MS)
    (hfalsy : jsTruthy e.value = false) :
    (fetchItemByIdCached now limit cache w tok tokResp true upstream
      id).calledStriven = true ∧
    ((rateWindowResetIfNeeded now w).windowCount < limit →
      (fetchItemByIdCached now limit cache w tok tokResp true upstream
        id).hitUpstream = true ∧
      (fetchItemByIdCached now limit cache w tok tokResp true upstream
        id).window.windowCount
        = (rateWindowResetIfNeeded now w).windowCount + 1) := by
  have hlook : cacheGetItem now cache id = (some e.value, cache) := by
    unfold cacheGetItem
    simp only [hfind]
    rw [if_neg (not_lt.mpr hfresh)]
  have hcalled :
      (fetchItemByIdCached now limit cache w tok tokResp true upstream
        id).calledStriven = true := by
    unfold fetchItemByIdCached
    simp only [hlook, hfalsy]
    simp only [Bool.false_eq_true, if_false]
    split
    · rfl
    · rfl
  refine ⟨hcalled, ?_⟩
  intro hadm
  have hsf : (strivenFetch now limit w tok tokResp true upstream).hitUpstream
      = true := by
    unfold strivenFetch canSpendStrivenCall
    rw [if_pos (by simpa using hadm)]
    rw [if_neg (by simp)]
    cases upstream <;> rfl
  rcases fetchCached_result_cases now limit cache w tok tokResp true upstream
    id with ⟨h1, _, _⟩ | ⟨_, h2, h3⟩
  · exact Bool.noConfusion (h1.symm.trans hcalled)
  · refine ⟨h3.trans hsf, ?_⟩
    rw [h2]
    exact strivenFetch_window_of_hit now limit w tok tokResp true upstream hsf

/-- A cache holding a fresh but falsy (null) value under key "7". -/
def exCacheFalsy : CacheMap := [("7", ⟨0, JsVal.jnull⟩)]

/-- Witness for C10 at a concrete falsy fresh entry. -/
theorem C10_falsy_cache_value_is_miss_witness :
    cacheFind exCacheFalsy (identKey (.num 7)) = some ⟨0, JsVal.jnull⟩ ∧
    (1000 : ℚ) - (0 : ℚ) ≤ ITEM_CACHE_TTL_MS ∧
    jsTruthy JsVal.jnull = false ∧
    ((fetchItemByIdCached 1000 90 exCacheFalsy ⟨0, 3⟩ ⟨none, 0⟩ exTokenResp true
        (.ok (.jitem exBundle)) (.num 7)).calledStriven = true ∧
     ((rateWindowResetIfNeeded 1000 ⟨0, 3⟩).windowCount < 90 →
       (fetchItemByIdCached 1000 90 exCacheFalsy ⟨0, 3⟩ ⟨none, 0⟩ exTokenResp true
         (.ok (.jitem exBundle)) (.num 7)).hitUpstream = true ∧
       (fetchItemByIdCached 1000 90 exCacheFalsy ⟨0, 3⟩ ⟨none, 0⟩ exTokenResp true
         (.ok (.jitem exBundle)) (.num 7)).window.windowCount
         = (rateWindowResetIfNeeded 1000 ⟨0, 3⟩).windowCount + 1)) :=
  ⟨by decide, by norm_num [ITEM_CACHE_TTL_MS], rfl,
    C10_falsy_cache_value_is_miss 1000 90 exCacheFalsy ⟨0, 3⟩ ⟨none, 0⟩ exTokenResp
      (.ok (.jitem exBundle)) (.num 7) ⟨0, JsVal.jnull⟩ (by decide)
      (by norm_num [ITEM_CACHE_TTL_MS]) rfl⟩

/-- C6: a value put at `t` is returned exactly by a get at any `t'` with
`t' − t ≤ TTL` (10 minutes); a get with `t' − t > TTL` reports absent and
deletes the entry, and the cached fetch then enters `strivenFetch` for a
fresh upstream fetch; a put stores under the string-normalized key,
overwriting with a fresh `storedAt`. -/
theorem C6_itemCache_ttl (t tq : ℚ) (c : CacheMap) (id : Ident) (v : JsVal)
    (limit : ℕ) (w : RateWindow) (tok : TokenState) (tokResp : TokenResponse)
    (tokenOk : Bool) (upstream : UpstreamResult) :
    (tq - t ≤ ITEM_CACHE_TTL_MS →
      cacheGetItem tq (cacheSetItem t c id v) id = (some v, cacheSetItem t c id v)) ∧
    (ITEM_CACHE_TTL_MS < tq - t →
      (cacheGetItem tq (cacheSetItem t c id v) id).1 = none ∧
      cacheFind (cacheGetItem tq (cacheSetItem t c id v) id).2 (identKey id) = none ∧
      (fetchItemByIdCached tq limit (cacheSetItem t c id v) w tok tokResp
        tokenOk upstream id).calledStriven = true) ∧
    cacheFind (cacheSetItem t c id v) (identKey id) = some ⟨t, v⟩ := by
  refine ⟨?_, ?_, cacheFind_set t c id v⟩
  · intro h1
    unfold cacheGetItem
    simp only [cacheFind_set]
    rw [if_neg (not_lt.mpr h1)]
  · intro h2
    have hget : cacheGetItem tq (cacheSetItem t c id v) id
        = (none, cacheErase (cacheSetItem t c id v) (identKey id)) := by
      unfold cacheGetItem
      simp only [cacheFind_set]
      rw [if_pos h2]
    refine ⟨by rw [hget], by rw [hget]; exact cacheFind_erase _ _, ?_⟩
    unfold fetchItemByIdCached
    simp only [hget]
    split
    · rfl
    · rfl

/-- Witness for C6: put at `t = 0`, read at `tq = 1000` (fresh) — the claim's
conjunction instantiated at concrete inputs. -/
theorem C6_itemCache_ttl_witness :
    ((1000 : ℚ) - 0 ≤ ITEM_CACHE_TTL_MS →
      cacheGetItem 1000 (cacheSetItem 0 [] (.num 5) (.jitem exBundle)) (.num 5)
        = (some (.jitem exBundle), cacheSetItem 0 [] (.num 5) (.jitem exBundle))) ∧
    (ITEM_CACHE_TTL_MS < (1000 : ℚ) - 0 →
      (cacheGetItem 1000 (cacheSetItem 0 [] (.num 5) (.jitem exBundle)) (.num 5)).1
        = none ∧
      cacheFind (cacheGetItem 1000 (cacheSetItem 0 [] (.num 5) (.jitem exBundle))
        (.num 5)).2 (identKey (.num 5)) = none ∧
      (fetchItemByIdCached 1000 90 (cacheSetItem 0 [] (.num 5) (.jitem exBundle))
        ⟨0, 0⟩ ⟨none, 0⟩ exTokenResp true (.ok (.jitem exBundle))
        (.num 5)).calledStriven = true) ∧
    cacheFind (cacheSetItem 0 [] (.num 5) (.jitem exBundle)) (identKey (.num 5))
      = some ⟨0, .jitem exBundle⟩ :=
  C6_itemCache_ttl 0 1000 [] (.num 5) (.jitem exBundle) 90 ⟨0, 0⟩ ⟨none, 0⟩
    exTokenResp true (.ok (.jitem exBundle))

/-- Outcome of one `fetchItemByIdCached` call as the batch handlers see it:
a parsed item, an error whose status is 429 (quota), or any other error. -/
inductive FetchSim where
  | ok (item : ItemJson)
  | quota (retryAfter : Option ℚ) (msg : String)
  | fail (msg : String)
deriving DecidableEq, Repr

/-- `err.retryAfter || getRetryAfterSeconds()` (server.js lines 299, 358):
a missing or zero per-error hint falls back to the guard's current value. -/
def jsOrRetry (ra : Option ℚ) (fb : ℚ) : ℚ :=
  match ra with
  | some q => if q = 0 then fb else q
  | none => fb

/-- `item.description ?? item.name ?? ""`. -/
def workDescOf (item : ItemJson) : String :=
  match item.description with
  | some d => d
  | none =>
    match item.name with
    | some n => n
    | none => ""

/-- One output line of `/api/resolve-lines`. -/
inductive ResLine where
  | success (id : Option Int) (itemNumber : Option String) (name : Option String)
      (kind : PKind) (workDescription : String)
      (rawTotal roundedTotal finalTotal : ℚ) (components : List Component)
  | failure (id : ℚ) (message : String)
deriving DecidableEq, Repr

/-- The success line built at server.js lines 369-379. -/
def mkSuccessLine (item : ItemJson) : ResLine :=
  .success item.id item.itemNumber item.name (calcItemRawTotal item).kind
    (workDescOf item) (calcItemRawTotal item).rawTotal
    (roundUpNice (.fin (calcItemRawTotal item).rawTotal))
    (roundUpNice (.fin (calcItemRawTotal item).rawTotal))
    (calcItemRawTotal item).components

/-- The `/api/resolve-lines` response body: the assembled lines, and the
top-level `retryAfter` when the batch was aborted with a 429. -/
structure LinesResponse where
  lines : List ResLine
  quotaRetryAfter : Option ℚ
deriving DecidableEq, Repr

/-- Embeds the `/api/resolve-lines` loop (server.js lines 345-380).  `fetch` is
the oracle for `fetchItemByIdCached`; `fbRA` the guard's current
`getRetryAfterSeconds()` value.  Besides the response, the list of ids for
which a fetch was attempted is returned. -/
def resolveLinesLoop (fetch : ℚ → FetchSim) (fbRA : ℚ) :
    List JsNum → LinesResponse × List ℚ
  | [] => (⟨[], none⟩, [])
  | x :: rest =>
    match x with
    | .fin id =>
      match fetch id with
      | .ok item =>
        (⟨mkSuccessLine item :: (resolveLinesLoop fetch fbRA rest).1.lines,
          (resolveLinesLoop fetch fbRA rest).1.quotaRetryAfter⟩,
         id :: (resolveLinesLoop fetch fbRA rest).2)
      | .quota ra _ => (⟨[], some (jsOrRetry ra fbRA)⟩, [id])
      | .fail msg =>
        (⟨ResLine.failure id msg :: (resolveLinesLoop fetch fbRA rest).1.lines,
          (resolveLinesLoop fetch fbRA rest).1.quotaRetryAfter⟩,
         id :: (resolveLinesLoop fetch fbRA rest).2)
    | _ => resolveLinesLoop fetch fbRA rest

/-- `x` never triggers a 429 abort under `fetch`. -/
def fetchNoQuota (fetch : ℚ → FetchSim) (x : JsNum) : Prop :=
  ∀ q ra m, x = JsNum.fin q → fetch q ≠ FetchSim.quota ra m

theorem resolveLines_noQuota_none (fetch : ℚ → FetchSim) (fbRA : ℚ)
    (l : List JsNum) (h : ∀ x ∈ l, fetchNoQuota fetch x) :
    (resolveLinesLoop fetch fbRA l).1.quotaRetryAfter = none := by
  induction l with
  | nil => rfl
  | cons x rest ih =>
    have hrest : ∀ y ∈ rest, fetchNoQuota fetch y := fun y hy => h y (by simp [hy])
    cases x with
    | fin q =>
      cases hfq : fetch q with
      | ok item => simp [resolveLinesLoop, hfq, ih hrest]
      | quota ra m => exact absurd hfq (h _ (by simp) q ra m rfl)
      | fail msg => simp [resolveLinesLoop, hfq, ih hrest]
    | nan => simpa [resolveLinesLoop] using ih hrest
    | inf => simpa [resolveLinesLoop] using ih hrest
    | ninf => simpa [resolveLinesLoop] using ih hrest

theorem resolveLines_append_quota (fetch : ℚ → FetchSim) (fbRA : ℚ)
    (pre post : List JsNum) (bid : ℚ) (ra : Option ℚ) (m : String)
    (h1 : ∀ x ∈ pre, fetchNoQuota fetch x)
    (hbad : fetch bid = .quota ra m) :
    resolveLinesLoop fetch fbRA (pre ++ JsNum.fin bid :: post)
      = (⟨(resolveLinesLoop fetch fbRA pre).1.lines, some (jsOrRetry ra fbRA)⟩,
         (resolveLinesLoop fetch fbRA pre).2 ++ [bid]) := by
  induction pre with
  | nil => simp [resolveLinesLoop, hbad]
  | cons x rest ih =>
    have hrest : ∀ y ∈ rest, fetchNoQuota fetch y := fun y hy => h1 y (by simp [hy])
    cases x with
    | fin q =>
      cases hfq : fetch q with
      | ok item => simp [resolveLinesLoop, hfq, ih hrest]
      | quota ra2 m2 => exact absurd hfq (h1 _ (by simp) q ra2 m2 rfl)
      | fail msg => simp [resolveLinesLoop, hfq, ih hrest]
    | nan => simpa [resolveLinesLoop] using ih hrest
    | inf => simpa [resolveLinesLoop] using ih hrest
    | ninf => simpa [resolveLinesLoop] using ih hrest

/-- Model of JavaScript's `.trim()`: drop whitespace from both ends. -/
def jsTrim (s : String) : String :=
  ⟨((s.data.dropWhile Char.isWhitespace).reverse.dropWhile Char.isWhitespace).reverse⟩

/-- Embeds `normalizeKey` (server.js lines 70-72): `String(s ?? "").trim()`. -/
def normalizeKey (s : String) : String := jsTrim s

/-- JavaScript truthiness of an optional numeric map value (`!id`). -/
def jsTruthyNum : Option ℚ → Bool
  | none => false
  | some q => decide (q ≠ 0)

/-- The id lookup of `/api/resolve-by-number` (server.js lines 276-281): the
fallback name map is consulted only when the primary map has no entry at all
(the source's `!id && itemNumberToId[itemNumber] == null`). -/
def lookupItemId (primary fbmap : String → Option ℚ) (key : String) : Option ℚ :=
  if jsTruthyNum (primary key) = false ∧ primary key = none then fbmap key
  else primary key

/-- One output line of `/api/resolve-by-number`. -/
inductive NumLine where
  | success (requestedItemNumber : String) (id : Option Int)
      (itemNumber : Option String) (name : Option String) (kind : PKind)
      (workDescription : String) (rawTotal roundedTotal finalTotal : ℚ)
      (components : List Component)
  | noId (requestedItemNumber : String)
  | failure (requestedItemNumber : String) (message : String)
deriving DecidableEq, Repr

/-- The `/api/resolve-by-number` response body. -/
structure NumResponse where
  lines : List NumLine
  quotaRetryAfter : Option ℚ
deriving DecidableEq, Repr

/-- Embeds the `/api/resolve-by-number` loop (server.js lines 274-327).
Identifiers with no mapped id get an error line without any fetch; the rest
behave as in `/api/resolve-lines`.  Also returns the ids actually fetched. -/
def resolveByNumberLoop (primary fbmap : String → Option ℚ)
    (fetch : ℚ → FetchSim) (fbRA : ℚ) : List String → NumResponse × List ℚ
  | [] => (⟨[], none⟩, [])
  | n :: rest =>
    if jsTruthyNum (lookupItemId primary fbmap (normalizeKey n)) = false then
      (⟨NumLine.noId (normalizeKey n)
          :: (resolveByNumberLoop primary fbmap fetch fbRA rest).1.lines,
        (resolveByNumberLoop primary fbmap fetch fbRA rest).1.quotaRetryAfter⟩,
       (resolveByNumberLoop primary fbmap fetch fbRA rest).2)
    else
      match fetch ((lookupItemId primary fbmap (normalizeKey n)).getD 0) with
      | .ok item =>
        (⟨NumLine.success (normalizeKey n) item.id item.itemNumber item.name
            (calcItemRawTotal item).kind (workDescOf item)
            (calcItemRawTotal item).rawTotal
            (roundUpNice (.fin (calcItemRawTotal item).rawTotal))
            (roundUpNice (.fin (calcItemRawTotal item).rawTotal))
            (calcItemRawTotal item).components
            :: (resolveByNumberLoop primary fbmap fetch fbRA rest).1.lines,
          (resolveByNumberLoop primary fbmap fetch fbRA rest).1.quotaRetryAfter⟩,
         (lookupItemId primary fbmap (normalizeKey n)).getD 0
           :: (resolveByNumberLoop primary fbmap fetch fbRA rest).2)
      | .quota ra _ =>
        (⟨[], some (jsOrRetry ra fbRA)⟩,
         [(lookupItemId primary fbmap (normalizeKey n)).getD 0])
      | .fail msg =>
        (⟨NumLine.failure (normalizeKey n) msg
            :: (resolveByNumberLoop primary fbmap fetch fbRA rest).1.lines,
          (resolveByNumberLoop primary fbmap fetch fbRA rest).1.quotaRetryAfter⟩,
         (lookupItemId primary fbmap (normalizeKey n)).getD 0
           :: (resolveByNumberLoop primary fbmap fetch fbRA rest).2)

/-- The string `s`, once looked up, never triggers a 429 abort under `fetch`. -/
def numNoQuota (primary fbmap : String → Option ℚ) (fetch : ℚ → FetchSim)
    (s : String) : Prop :=
  ∀ ra m, jsTruthyNum (lookupItemId primary fbmap (normalizeKey s)) = true →
    fetch ((lookupItemId primary fbmap (normalizeKey s)).getD 0)
      ≠ FetchSim.quota ra m

theorem resolveByNumber_noQuota_none (primary fbmap : String → Option ℚ)
    (fetch : ℚ → FetchSim) (fbRA : ℚ) (l : List String)
    (h : ∀ s ∈ l, numNoQuota primary fbmap fetch s) :
    (resolveByNumberLoop primary fbmap fetch fbRA l).1.quotaRetryAfter = none := by
  induction l with
  | nil => rfl
  | cons n rest ih =>
    have hrest : ∀ s ∈ rest, numNoQuota primary fbmap fetch s :=
      fun s hs => h s (by simp [hs])
    by_cases htr : jsTruthyNum (lookupItemId primary fbmap (normalizeKey n)) = false
    · simp [resolveByNumberLoop, htr, ih hrest]
    · have htru : jsTruthyNum (lookupItemId primary fbmap (normalizeKey n)) = true := by
        revert htr
        cases jsTruthyNum (lookupItemId primary fbmap (normalizeKey n)) <;> simp
      cases hfq : fetch ((lookupItemId primary fbmap (normalizeKey n)).getD 0) with
      | ok item => simp [resolveByNumberLoop, htr, hfq, ih hrest]
      | quota ra m => exact absurd hfq (h n (by simp) ra m htru)
      | fail msg => simp [resolveByNumberLoop, htr, hfq, ih hrest]

theorem resolveByNumber_append_quota (primary fbmap : String → Option ℚ)
    (fetch : ℚ → FetchSim) (fbRA : ℚ) (npre npost : List String) (bnum : String)
    (ra : Option ℚ) (m : String)
    (h2 : ∀ s ∈ npre, numNoQuota primary fbmap fetch s)
    (htru : jsTruthyNum (lookupItemId primary fbmap (normalizeKey bnum)) = true)
    (hbad : fetch ((lookupItemId primary fbmap (normalizeKey bnum)).getD 0)
      = .quota ra m) :
    resolveByNumberLoop primary fbmap fetch fbRA (npre ++ bnum :: npost)
      = (⟨(resolveByNumberLoop primary fbmap fetch fbRA npre).1.lines,
          some (jsOrRetry ra fbRA)⟩,
         (resolveByNumberLoop primary fbmap fetch fbRA npre).2
           ++ [(lookupItemId primary fbmap (normalizeKey bnum)).getD 0]) := by
  induction npre with
  | nil =>
    have htr : ¬ jsTruthyNum (lookupItemId primary fbmap (normalizeKey bnum))
        = false := by
      rw [htru]
      simp
    simp [resolveByNumberLoop, htr, hbad]
  | cons n rest ih =>
    have hrest : ∀ s ∈ rest, numNoQuota primary fbmap fetch s :=
      fun s hs => h2 s (by simp [hs])
    by_cases htr : jsTruthyNum (lookupItemId primary fbmap (normalizeKey n)) = false
    · simp [resolveByNumberLoop, htr, ih hrest]
    · have htru2 : jsTruthyNum (lookupItemId primary fbmap (normalizeKey n))
          = true := by
        revert htr
        cases jsTruthyNum (lookupItemId primary fbmap (normalizeKey n)) <;> simp
      cases hfq : fetch ((lookupItemId primary fbmap (normalizeKey n)).getD 0) with
      | ok item => simp [resolveByNumberLoop, htr, hfq, ih hrest]
      | quota ra2 m2 => exact absurd hfq (h2 n (by simp) ra2 m2 htru2)
      | fail msg => simp [resolveByNumberLoop, htr, hfq, ih hrest]

theorem getRetryAfterSeconds_ge_one (now : ℚ) (w : RateWindow) :
    1 ≤ (getRetryAfterSeconds now w).1 :=
  le_max_left 1 _

/-- C3: in both batch endpoints, when a prefix of the batch never trips the
quota and the next identifier's fetch raises the 429 quota error, the response
equals the lines produced for the prefix plus a top-level quota signal (the
prefix itself carries none), the trace of attempted fetches stops at the
failing identifier (nothing after it is consulted — the result does not
depend on the rest of the batch), the signalled hint is ≥ 1 whenever the
error hint and fallback are, and the guard's own `getRetryAfterSeconds` hint
is always ≥ 1. -/
theorem C3_batch_quota_abort (fetch : ℚ → FetchSim) (fbRA : ℚ)
    (primary fbmap : String → Option ℚ)
    (pre post : List JsNum) (bid : ℚ) (ra : Option ℚ) (m : String)
    (npre npost : List String) (bnum : String)
    (h1 : ∀ x ∈ pre, fetchNoQuota fetch x)
    (hbad : fetch bid = .quota ra m)
    (h2 : ∀ s ∈ npre, numNoQuota primary fbmap fetch s)
    (htru : jsTruthyNum (lookupItemId primary fbmap (normalizeKey bnum)) = true)
    (hnbad : fetch ((lookupItemId primary fbmap (normalizeKey bnum)).getD 0)
      = .quota ra m)
    (hra : ∀ q, ra = some q → 1 ≤ q)
    (hfb : 1 ≤ fbRA) :
    resolveLinesLoop fetch fbRA (pre ++ JsNum.fin bid :: post)
      = (⟨(resolveLinesLoop fetch fbRA pre).1.lines, some (jsOrRetry ra fbRA)⟩,
         (resolveLinesLoop fetch fbRA pre).2 ++ [bid]) ∧
    (resolveLinesLoop fetch fbRA pre).1.quotaRetryAfter = none ∧
    resolveByNumberLoop primary fbmap fetch fbRA (npre ++ bnum :: npost)
      = (⟨(resolveByNumberLoop primary fbmap fetch fbRA npre).1.lines,
          some (jsOrRetry ra fbRA)⟩,
         (resolveByNumberLoop primary fbmap fetch fbRA npre).2
           ++ [(lookupItemId primary fbmap (normalizeKey bnum)).getD 0]) ∧
    (resolveByNumberLoop primary fbmap fetch fbRA npre).1.quotaRetryAfter = none ∧
    1 ≤ jsOrRetry ra fbRA ∧
    (∀ n w, (1 : ℚ) ≤ ((getRetryAfterSeconds n w).1 : ℚ)) := by
  refine ⟨resolveLines_append_quota fetch fbRA pre post bid ra m h1 hbad,
    resolveLines_noQuota_none fetch fbRA pre h1,
    resolveByNumber_append_quota primary fbmap fetch fbRA npre npost bnum ra m
      h2 htru hnbad,
    resolveByNumber_noQuota_none primary fbmap fetch fbRA npre h2, ?_, ?_⟩
  · unfold jsOrRetry
    cases ra with
    | none => exact hfb
    | some q =>
      show 1 ≤ if q = 0 then fbRA else q
      by_cases hq : q = 0
      · rw [if_pos hq]
        exact hfb
      · rw [if_neg hq]
        exact hra q rfl
  · intro n w
    exact_mod_cast getRetryAfterSeconds_ge_one n w

/-- A fetch oracle whose id 3 trips the quota guard (hint 7 s). -/
def exFetchQ : ℚ → FetchSim := fun q =>
  if q = 3 then .quota (some 7) "quota exceeded" else .ok exBundle

/-- A primary number→id map holding only "A-1" ↦ 3. -/
def exPrimary : String → Option ℚ := fun s => if s = "A-1" then some 3 else none

/-- An empty fallback name→id map. -/
def exFallbackMap : String → Option ℚ := fun _ => none

/-- Witness for C3: by-id batch `[1, 3, 4]` aborting at id 3, and by-number
batch `["X", "A-1", "Y"]` aborting at the id mapped for "A-1". -/
theorem C3_batch_quota_abort_witness :
    resolveLinesLoop exFetchQ 2 ([JsNum.fin 1] ++ JsNum.fin 3 :: [JsNum.fin 4])
      = (⟨(resolveLinesLoop exFetchQ 2 [JsNum.fin 1]).1.lines,
          some (jsOrRetry (some 7) 2)⟩,
         (resolveLinesLoop exFetchQ 2 [JsNum.fin 1]).2 ++ [3]) ∧
    (resolveLinesLoop exFetchQ 2 [JsNum.fin 1]).1.quotaRetryAfter = none ∧
    resolveByNumberLoop exPrimary exFallbackMap exFetchQ 2 (["X"] ++ "A-1" :: ["Y"])
      = (⟨(resolveByNumberLoop exPrimary exFallbackMap exFetchQ 2 ["X"]).1.lines,
          some (jsOrRetry (some 7) 2)⟩,
         (resolveByNumberLoop exPrimary exFallbackMap exFetchQ 2 ["X"]).2
           ++ [(lookupItemId exPrimary exFallbackMap (normalizeKey "A-1")).getD 0]) ∧
    (resolveByNumberLoop exPrimary exFallbackMap exFetchQ 2 ["X"]).1.quotaRetryAfter
      = none ∧
    1 ≤ jsOrRetry (some 7) 2 ∧
    (∀ n w, (1 : ℚ) ≤ ((getRetryAfterSeconds n w).1 : ℚ)) := by
  have h1 : ∀ x ∈ [JsNum.fin 1], fetchNoQuota exFetchQ x := by
    intro x hx q ra m hq
    simp only [List.mem_singleton] at hx
    subst hx
    cases hq
    intro hcon
    simp only [exFetchQ] at hcon
    norm_num at hcon
    exact FetchSim.noConfusion hcon
  have h2 : ∀ s ∈ ["X"], numNoQuota exPrimary exFallbackMap exFetchQ s := by
    intro s hs ra m htru
    simp only [List.mem_singleton] at hs
    subst hs
    exact absurd htru (by decide)
  have hra : ∀ q : ℚ, (some 7 : Option ℚ) = some q → 1 ≤ q := by
    intro q hq
    cases hq
    norm_num
  exact C3_batch_quota_abort exFetchQ 2 exPrimary exFallbackMap
    [JsNum.fin 1] [JsNum.fin 4] 3 (some 7) "quota exceeded"
    ["X"] ["Y"] "A-1" h1 (by decide) h2 (by decide) (by decide) hra (by norm_num)

/-- A fetch oracle that always fails with a non-429 error. -/
def exFetchFail : ℚ → FetchSim := fun _ => .fail "upstream error"

/-- C9 counterexample: a one-element batch whose `id` is not a finite number
produces ZERO output lines with no quota abort — not the one-record-per-input
the claim requires (`continue` at server.js line 349 silently skips it). -/
theorem C9_counterexample_nonfinite_id :
    (∀ x ∈ [JsNum.nan], fetchNoQuota exFetchFail x) ∧
    (resolveLinesLoop exFetchFail 1 [JsNum.nan]).1.quotaRetryAfter = none ∧
    (resolveLinesLoop exFetchFail 1 [JsNum.nan]).1.lines.length = 0 ∧
    ([JsNum.nan] : List JsNum).length = 1 := by
  refine ⟨?_, rfl, rfl, rfl⟩
  intro x hx q ra m hq
  simp only [List.mem_singleton] at hx
  subst hx
  exact JsNum.noConfusion hq

/-- The line `/api/resolve-lines` would emit for one input, if any: success
for an ok fetch, a per-line error for a non-429 failure, nothing for a
non-finite id. -/
def recordFor (fetch : ℚ → FetchSim) : JsNum → Option ResLine
  | .fin id =>
    match fetch id with
    | .ok item => some (mkSuccessLine item)
    | .quota _ _ => none
    | .fail msg => some (.failure id msg)
  | _ => none

def isFiniteJs : JsNum → Bool
  | .fin _ => true
  | _ => false

theorem resolveLines_lines_eq (fetch : ℚ → FetchSim) (fbRA : ℚ)
    (l : List JsNum) (h : ∀ x ∈ l, fetchNoQuota fetch x) :
    (resolveLinesLoop fetch fbRA l).1.lines = l.filterMap (recordFor fetch) := by
  induction l with
  | nil => rfl
  | cons x rest ih =>
    have hrest : ∀ y ∈ rest, fetchNoQuota fetch y := fun y hy => h y (by simp [hy])
    cases x with
    | fin q =>
      cases hfq : fetch q with
      | ok item => simp [resolveLinesLoop, recordFor, hfq, ih hrest]
      | quota ra m => exact absurd hfq (h _ (by simp) q ra m rfl)
      | fail msg => simp [resolveLinesLoop, recordFor, hfq, ih hrest]
    | nan => simpa [resolveLinesLoop, recordFor] using ih hrest
    | inf => simpa [resolveLinesLoop, recordFor] using ih hrest
    | ninf => simpa [resolveLinesLoop, recordFor] using ih hrest

theorem recordFor_isSome (fetch : ℚ → FetchSim) (x : JsNum)
    (hx : fetchNoQuota fetch x) :
    (recordFor fetch x).isSome = isFiniteJs x := by
  cases x with
  | fin q =>
    cases hfq : fetch q with
    | ok item => simp [recordFor, hfq, isFiniteJs]
    | quota ra m => exact absurd hfq (hx q ra m rfl)
    | fail msg => simp [recordFor, hfq, isFiniteJs]
  | nan => rfl
  | inf => rfl
  | ninf => rfl

theorem filterMap_recordFor_length (fetch : ℚ → FetchSim) (l : List JsNum)
    (h : ∀ x ∈ l, fetchNoQuota fetch x) :
    (l.filterMap (recordFor fetch)).length
      = (l.filter (fun x => isFiniteJs x)).length := by
  induction l with
  | nil => rfl
  | cons x rest ih =>
    have hx := recordFor_isSome fetch x (h x (by simp))
    have hrest : ∀ y ∈ rest, fetchNoQuota fetch y := fun y hy => h y (by simp [hy])
    cases hro : recordFor fetch x with
    | some r =>
      have hfin : isFiniteJs x = true := by rw [← hx, hro]; rfl
      simp [List.filterMap_cons, List.filter_cons, hro, hfin, ih hrest]
    | none =>
      have hfin : isFiniteJs x = false := by rw [← hx, hro]; rfl
      simp [List.filterMap_cons, List.filter_cons, hro, hfin, ih hrest]

/-- C9 (amended): when no quota abort occurs, the by-id batch emits exactly
one output record — success or per-line error — per input whose `id` coerces
to a FINITE number, in input order; inputs with a non-finite `id` are
silently skipped and produce no record at all. -/
theorem C9_one_record_per_finite_id (fetch : ℚ → FetchSim) (fbRA : ℚ)
    (l : List JsNum) (h : ∀ x ∈ l, fetchNoQuota fetch x) :
    (resolveLinesLoop fetch fbRA l).1.lines = l.filterMap (recordFor fetch) ∧
    (resolveLinesLoop fetch fbRA l).1.quotaRetryAfter = none ∧
    (resolveLinesLoop fetch fbRA l).1.lines.length
      = (l.filter (fun x => isFiniteJs x)).length := by
  refine ⟨resolveLines_lines_eq fetch fbRA l h,
    resolveLines_noQuota_none fetch fbRA l h, ?_⟩
  rw [resolveLines_lines_eq fetch fbRA l h]
  exact filterMap_recordFor_length fetch l h

/-- Witness for C9 (amended) on the batch `[1, NaN, 2]` under an oracle that
never trips the quota. -/
theorem C9_one_record_per_finite_id_witness :
    (resolveLinesLoop exFetchFail 1 [JsNum.fin 1, JsNum.nan, JsNum.fin 2]).1.lines
      = [JsNum.fin 1, JsNum.nan, JsNum.fin 2].filterMap (recordFor exFetchFail) ∧
    (resolveLinesLoop exFetchFail 1
      [JsNum.fin 1, JsNum.nan, JsNum.fin 2]).1.quotaRetryAfter = none ∧
    (resolveLinesLoop exFetchFail 1
      [JsNum.fin 1, JsNum.nan, JsNum.fin 2]).1.lines.length
      = ([JsNum.fin 1, JsNum.nan, JsNum.fin 2].filter
          (fun x => isFiniteJs x)).length := by
  have h : ∀ x ∈ [JsNum.fin 1, JsNum.nan, JsNum.fin 2],
      fetchNoQuota exFetchFail x := by
    intro x hx q ra m hq
    intro hcon
    simp only [exFetchFail] at hcon
    exact FetchSim.noConfusion hcon
  exact C9_one_record_per_finite_id exFetchFail 1 [JsNum.fin 1, JsNum.nan, JsNum.fin 2] h
